import Mathlib

/-!
Shallow embedding of the pyguard reverse-proxy core (repository mrsnifo/pyguard)
and verification of its specification claims.

The embedding follows the Python source:
  * `src/pyguard/http.py`    — `HTTPClient` (header filter, retry loop), `Request.respond`/`forward`
  * `src/pyguard/protocol.py`— `RequestHandler._handle_request` (interception state machine)
  * `src/pyguard/client.py`  — `Client._run_event` / `Client.on_error` (event dispatcher)
  * `src/pyguard/errors.py`  — `RequestAborted`, `RequestForward`, `RequestNotHandled`
  * `src/pyguard/gateway.py` — `WebSocketHandler.is_websocket_request`, `forward` URL rewrite

Header multimaps are modelled as ordered lists of key/value pairs (aiohttp's
`CIMultiDict` preserves insertion order and allows duplicate keys).  Python
`dict` comprehensions are modelled by `pyDict`, which reproduces CPython's
semantics: re-inserting an existing key updates the value in place, keeping
the key's original position.
-/

set_option autoImplicit false

namespace PyGuard

/-- A single HTTP header: (name, value), name in its original casing. -/
abbrev Header := String × String

/-- An ordered header multimap, as held by aiohttp's `CIMultiDict`. -/
abbrev Headers := List Header

/-- ASCII lowercasing of one character, the relevant fragment of Python `str.lower`
for header names and values. -/
def lowerChar (c : Char) : Char :=
  if 'A' ≤ c ∧ c ≤ 'Z' then Char.ofNat (c.toNat + 32) else c

/-- ASCII lowercasing of a string (Python `str.lower` on header text). -/
def asciiLower (s : String) : String :=
  String.mk (s.toList.map lowerChar)

/-- `HTTPClient.HOP_BY_HOP_HEADERS` (src/pyguard/http.py lines 114-123). -/
def HOP_BY_HOP_HEADERS : List String :=
  ["connection", "keep-alive", "proxy-authenticate", "proxy-authorization",
   "te", "trailers", "transfer-encoding", "upgrade"]

/-- The excluded-name set used by `HTTPClient._filter_headers`: the hop-by-hop
names, plus `host` when `include_host` is true. -/
def excludedNames (include_host : Bool) : List String :=
  if include_host then HOP_BY_HOP_HEADERS ++ ["host"] else HOP_BY_HOP_HEADERS

/-- The comprehension filter condition of `_filter_headers`:
keep `(k, v)` iff `k.lower() not in excluded`. -/
def keepHeader (include_host : Bool) (kv : Header) : Bool :=
  !((excludedNames include_host).contains (asciiLower kv.1))

/-- CPython `dict` insertion: if the (exact, case-sensitive) key is already
present, update its value in place at its original position; otherwise append. -/
def dictInsert : Headers → String → String → Headers
  | [], k, v => [(k, v)]
  | (k0, v0) :: rest, k, v =>
      if k0 = k then (k0, v) :: rest else (k0, v0) :: dictInsert rest k v

/-- Building a CPython `dict` from an ordered sequence of key/value pairs
(the semantics of a `dict` comprehension over `headers.items()`). -/
def pyDict (l : Headers) : Headers :=
  l.foldl (fun d kv => dictInsert d kv.1 kv.2) []

/-- `HTTPClient._filter_headers` (src/pyguard/http.py lines 198-204):
`{k: v for k, v in headers.items() if k.lower() not in excluded}`. -/
def filter_headers (headers : Headers) (include_host : Bool := false) : Headers :=
  pyDict (headers.filter (keepHeader include_host))

/-- An inbound HTTP request, the fields of `web.BaseRequest` the core reads. -/
structure Req where
  method : String
  path_qs : String
  headers : Headers
  deriving DecidableEq

/-- An outbound HTTP response (`web.Response`): status, reason, headers, body. -/
structure Resp where
  status : Nat
  reason : String
  headers : Headers
  body : String
  deriving DecidableEq

/-! ### Event dispatcher (src/pyguard/client.py) -/

/-- What a user hook does when invoked: return normally, raise one of the two
control signals (`Request.respond` raises `RequestAborted`, `Request.forward`
raises `RequestForward` — src/pyguard/http.py lines 56-88), be cancelled, or
raise any other `Exception`. -/
inductive HookBehavior where
  | returns
  | raisesAborted (r : Resp)
  | raisesForward (url : String) (req : Req)
  | raisesCancelled
  | raisesOther (e : String)
  deriving DecidableEq

/-- The outcome of `Client._run_event` as seen by its caller: the wrapper
returned normally, a control signal propagated out of it, or the exception was
routed to the default `error` handler (after which the wrapper returns). -/
inductive RunEventResult where
  | ok
  | raisedAborted (r : Resp)
  | raisedForward (url : String) (req : Req)
  | errorRouted (e : String)
  deriving DecidableEq

/-- `Client._run_event` (src/pyguard/client.py lines 348-376): awaits the hook;
`asyncio.CancelledError` is swallowed; `RequestAborted` and `RequestForward`
are re-raised; any other `Exception` is passed to `Client.on_error`, which only
logs and returns. -/
def run_event : HookBehavior → RunEventResult
  | .returns => .ok
  | .raisesAborted r => .raisedAborted r
  | .raisesForward url req => .raisedForward url req
  | .raisesCancelled => .ok
  | .raisesOther e => .errorRouted e

/-! ### Backend client retry loop (src/pyguard/http.py, `HTTPClient.request`) -/

/-- What one call of `session.request(**kwargs)` (plus reading the body) does:
succeed with a raw backend response, raise an `OSError` with the given `errno`,
or raise some non-`OSError` exception. -/
inductive AttemptOutcome where
  | ok (raw : Resp)
  | oserror (errno : Int)
  | exn (e : String)
  deriving DecidableEq

/-- The result of `HTTPClient.request`: a response returned, an `OSError`
re-raised, a non-`OSError` exception propagated, or the `RuntimeError`
("Unreachable, all retries exhausted") after the loop. -/
inductive ReqResult where
  | ok (r : Resp)
  | osfail (errno : Int)
  | exnfail (e : String)
  | unreachable
  deriving DecidableEq

/-- The response `HTTPClient.request` builds from a successful attempt
(src/pyguard/http.py lines 182-189): same status/reason/body, headers passed
through `_filter_headers` with `include_host=False`. -/
def backendResponse (raw : Resp) : Resp :=
  { raw with headers := filter_headers raw.headers false }

/-- The `for tries in range(5)` loop of `HTTPClient.request`
(src/pyguard/http.py lines 173-196), with the remaining iteration count made
explicit.  `transport n` is the outcome of the attempt with loop index `n`.
Returns (result, number of attempts made, total time slept).  On `OSError` the
code retries only when `tries < 4` and `errno ∈ {54, 10054}`, sleeping
`1 + tries * 2` first; every other exception is re-raised at once.  Exhausting
the iterations falls through to `RuntimeError` (`ReqResult.unreachable`). -/
def requestLoop (transport : Nat → AttemptOutcome) : Nat → Nat → ReqResult × Nat × Nat
  | _, 0 => (.unreachable, 0, 0)
  | tries, fuel + 1 =>
      match transport tries with
      | .ok raw => (.ok (backendResponse raw), 1, 0)
      | .oserror errno =>
          if tries < 4 ∧ (errno = 54 ∨ errno = 10054) then
            let rest := requestLoop transport (tries + 1) fuel
            (rest.1, rest.2.1 + 1, rest.2.2 + (1 + tries * 2))
          else (.osfail errno, 1, 0)
      | .exn e => (.exnfail e, 1, 0)

/-- `HTTPClient.request` run on a transport: the loop `for tries in range(5)`
starting at `tries = 0` with 5 iterations available. -/
def HTTPClient_request (transport : Nat → AttemptOutcome) : ReqResult × Nat × Nat :=
  requestLoop transport 0 5

/-! ### Interception state machine (src/pyguard/protocol.py) -/

/-- How `RequestHandler._handle_request` ends: `finish_response` was called
with a final response; `RequestNotHandled` propagated to the server runtime;
or a `RequestForward` raised by the `forward` hook escaped (the inner `try`
only catches `RequestAborted`). -/
inductive ExchangeResult where
  | finished (r : Resp)
  | notHandled
  | escapedForward (url : String)
  deriving DecidableEq

/-- `RequestHandler._handle_request` (src/pyguard/protocol.py lines 39-110),
composed with the dispatcher semantics of `run_event`: dispatch the `request`
hook; a normal return (including a contained hook error) falls through to
`raise RequestNotHandled`; `RequestAborted` finalizes with the carried
response; `RequestForward` invokes the proxy forwarder, dispatches the
`forward` hook over its result, and finalizes with either the hook's
`RequestAborted` response or the forwarded response itself.  The second
component counts invocations of the proxy forwarder / backend client. -/
def handle_request (reqHook : Req → HookBehavior) (fwdHook : Resp → HookBehavior)
    (proxyForward : String → Req → Resp) (req : Req) : ExchangeResult × Nat :=
  match run_event (reqHook req) with
  | .raisedAborted r => (.finished r, 0)
  | .raisedForward url rq =>
      let fwd := proxyForward url rq
      match run_event (fwdHook fwd) with
      | .raisedAborted r2 => (.finished r2, 1)
      | .raisedForward u2 _ => (.escapedForward u2, 1)
      | .ok => (.finished fwd, 1)
      | .errorRouted _ => (.finished fwd, 1)
  | .ok => (.notHandled, 0)
  | .errorRouted _ => (.notHandled, 0)

/-- Modelled from the spec: the class `ClientProxy` (imported by client.py and
server.py from `.proxy`) is not present under src/.  Per spec §4.2/§4.4 the
HTTP path of the forwarder delegates to the Backend Client, whose source
(`HTTPClient.request`, src/pyguard/http.py lines 182-189) filters the backend
response's headers with `excludeHost=false` before handing it back; the
forwarder therefore returns the backend's response with hop-by-hop headers
stripped. -/
def ClientProxy_forward (backend : String → Req → Resp) (url : String) (rq : Req) : Resp :=
  backendResponse (backend url rq)

/-- Modelled from the spec: finalization of a failed exchange happens in the
HTTP server runtime, an external collaborator per spec §1/§7 — "the exchange
must still finalize (e.g., as an internal-error response) rather than hang".
An exchange that raised out of the state machine is answered with a generic
internal-error response; a finished exchange keeps its response. -/
def internal_error_response : Resp :=
  { status := 500, reason := "Internal Server Error", headers := [], body := "" }

/-- Modelled from the spec: the server runtime turns the state machine's
outcome into the one outbound response of the exchange (spec §7,
"UnhandledExchange ... the exchange must still finalize"). -/
def finalize_exchange : ExchangeResult → Resp
  | .finished r => r
  | .notHandled => internal_error_response
  | .escapedForward _ => internal_error_response

/-! ### WebSocket upgrade detection and URL rewrite (src/pyguard/gateway.py) -/

/-- Python substring containment `needle in haystack` on character lists:
true iff `needle` occurs contiguously in `haystack` (the empty needle is
contained in everything). -/
def listContainsSub (needle : List Char) : List Char → Bool
  | [] => needle.isEmpty
  | c :: rest => needle.isPrefixOf (c :: rest) || listContainsSub needle rest

/-- Python substring containment `sub in s` on strings. -/
def strContains (s sub : String) : Bool :=
  listContainsSub sub.toList s.toList

/-- `CIMultiDict.get(name, "")`: the value of the first header whose name
matches case-insensitively, or `""` when absent. -/
def headers_get (hs : Headers) (name : String) : String :=
  match hs.find? (fun kv => asciiLower kv.1 == asciiLower name) with
  | some kv => kv.2
  | none => ""

/-- `WebSocketHandler.is_websocket_request` (src/pyguard/gateway.py lines
38-51):
`request.headers.get("Upgrade", "").lower() == "websocket" and
 "upgrade" in request.headers.get("Connection", "").lower()` —
the second conjunct is Python substring containment. -/
def is_websocket_request (r : Req) : Bool :=
  asciiLower (headers_get r.headers "Upgrade") == "websocket" &&
    strContains (asciiLower (headers_get r.headers "Connection")) "upgrade"

/-- Splitting a character list on commas (the separator of `Connection`
header token lists). -/
def splitOnComma : List Char → List (List Char)
  | [] => [[]]
  | c :: rest =>
      if c = ',' then [] :: splitOnComma rest
      else
        match splitOnComma rest with
        | [] => [[c]]
        | t :: ts => (c :: t) :: ts

/-- Linear whitespace, as stripped around header tokens. -/
def isLws (c : Char) : Bool := c = ' ' || c = '\t'

/-- Stripping surrounding linear whitespace from a character list. -/
def trimChars (l : List Char) : List Char :=
  ((l.dropWhile isLws).reverse.dropWhile isLws).reverse

/-- The comma-separated token list of a `Connection` header value, each token
stripped of surrounding whitespace (formalising the spec's words "contains the
token `upgrade`", for comparison against the source's substring test). -/
def headerTokens (s : String) : List String :=
  (splitOnComma s.toList).map (fun t => String.mk (trimChars t))

/-- Token containment per the spec's words: the lowercased header value,
split on commas and trimmed, has `tok` as one of its tokens. -/
def tokenContains (s tok : String) : Bool :=
  (headerTokens (asciiLower s)).contains tok

/-- Python `str.replace(needle, repl)` on character lists, fuel-indexed:
scan left to right, replace each non-overlapping occurrence.  The fuel is set
to the haystack length by the wrapper; each step consumes at least one
character, so the fuel never runs out. -/
def pyReplaceAux (needle repl : List Char) : Nat → List Char → List Char
  | 0, s => s
  | _, [] => []
  | fuel + 1, c :: rest =>
      if needle.isPrefixOf (c :: rest) && !needle.isEmpty then
        repl ++ pyReplaceAux needle repl fuel (List.drop (needle.length - 1) rest)
      else
        c :: pyReplaceAux needle repl fuel rest

/-- Python `s.replace(needle, repl)`: replaces every non-overlapping
occurrence of `needle` in `s`, left to right. -/
def pyReplace (s needle repl : String) : String :=
  String.mk (pyReplaceAux needle.toList repl.toList s.toList.length s.toList)

/-- Python `s.rstrip("/")`: drop trailing slash characters
(`WebSocketHandler.__init__`, src/pyguard/gateway.py line 21). -/
def rstripSlash (s : String) : String :=
  String.mk ((s.toList.reverse.dropWhile (fun c => c == '/')).reverse)

/-- The target-URL computation of `WebSocketHandler.forward`
(src/pyguard/gateway.py lines 53-67): compose the stripped base URL with the
request's path-and-query, then
`.replace("http://", "ws://").replace("https://", "wss://")` — string-global
replacement, applied to the whole composed URL. -/
def ws_forward_url (target_url path_qs : String) : String :=
  pyReplace (pyReplace (rstripSlash target_url ++ path_qs) "http://" "ws://")
    "https://" "wss://"

/-- Rewriting only the leading scheme of a URL (`http→ws`, `https→wss`), the
behaviour a scheme-position-only rewrite would have; used to compare against
the source's global string replacement. -/
def schemeOnlyRewrite (url : String) : String :=
  if ("https://".toList).isPrefixOf url.toList then
    "wss://" ++ String.mk (url.toList.drop 8)
  else if ("http://".toList).isPrefixOf url.toList then
    "ws://" ++ String.mk (url.toList.drop 7)
  else url

/-! ### Lemmas about the CPython dict model -/

/-- The one-step function folded by `pyDict`. -/
def pyDictStep (d : Headers) (kv : Header) : Headers :=
  dictInsert d kv.1 kv.2

theorem pyDict_eq_foldl (l : Headers) : pyDict l = l.foldl pyDictStep [] := rfl

/-- A key predicate holding on a dict and on the inserted key holds on the
insertion result. -/
theorem dictInsert_key_pred (p : String → Bool) (d : Headers) (k v : String)
    (hd : ∀ x ∈ d, p x.1 = true) (hk : p k = true) :
    ∀ x ∈ dictInsert d k v, p x.1 = true := by
  induction d with
  | nil =>
      intro x hx
      simp only [dictInsert, List.mem_singleton] at hx
      subst hx; exact hk
  | cons hd0 tl ih =>
      intro x hx
      obtain ⟨k0, v0⟩ := hd0
      simp only [dictInsert] at hx
      by_cases hkk : k0 = k
      · simp only [if_pos hkk, List.mem_cons] at hx
        rcases hx with h | h
        · subst h; simpa [hkk] using hk
        · exact hd _ (List.mem_cons_of_mem _ h)
      · simp only [if_neg hkk, List.mem_cons] at hx
        rcases hx with h | h
        · subst h; exact hd _ (List.mem_cons_self _ _)
        · exact ih (fun y hy => hd y (List.mem_cons_of_mem _ hy)) x h

/-- A key predicate holding on every pair of the input holds on every pair of
the built dict. -/
theorem pyDict_key_pred (p : String → Bool) (l : Headers)
    (hl : ∀ x ∈ l, p x.1 = true) :
    ∀ x ∈ pyDict l, p x.1 = true := by
  rw [pyDict_eq_foldl]
  have main : ∀ (l d : Headers), (∀ x ∈ d, p x.1 = true) →
      (∀ x ∈ l, p x.1 = true) → ∀ x ∈ l.foldl pyDictStep d, p x.1 = true := by
    intro l
    induction l with
    | nil => intro d hd _ x hx; exact hd x hx
    | cons kv tl ih =>
        intro d hd hcons x hx
        simp only [List.foldl_cons] at hx
        exact ih (dictInsert d kv.1 kv.2)
          (dictInsert_key_pred p d kv.1 kv.2 hd (hcons kv (List.mem_cons_self _ _)))
          (fun y hy => hcons y (List.mem_cons_of_mem _ hy)) x hx
  exact main l [] (by simp) hl

/-- Inserting an already-present key leaves the key sequence unchanged. -/
theorem keys_dictInsert_mem (d : Headers) (k v : String)
    (h : k ∈ d.map Prod.fst) :
    (dictInsert d k v).map Prod.fst = d.map Prod.fst := by
  induction d with
  | nil => simp at h
  | cons hd0 tl ih =>
      obtain ⟨k0, v0⟩ := hd0
      by_cases hkk : k0 = k
      · simp [dictInsert, hkk]
      · have : k ∈ tl.map Prod.fst := by
          simp only [List.map_cons, List.mem_cons] at h
          rcases h with h | h
          · exact absurd h.symm hkk
          · exact h
        simp [dictInsert, hkk, ih this]

/-- Inserting a fresh key appends the pair at the end. -/
theorem dictInsert_not_mem (d : Headers) (k v : String)
    (h : k ∉ d.map Prod.fst) :
    dictInsert d k v = d ++ [(k, v)] := by
  induction d with
  | nil => rfl
  | cons hd0 tl ih =>
      obtain ⟨k0, v0⟩ := hd0
      have hkk : k0 ≠ k := by
        intro he; exact h (by simp [he])
      have htl : k ∉ tl.map Prod.fst := by
        intro hmem; exact h (by simp [hmem])
      simp [dictInsert, hkk, ih htl]

/-- Dict insertion preserves key distinctness. -/
theorem dictInsert_nodup (d : Headers) (k v : String)
    (h : (d.map Prod.fst).Nodup) :
    ((dictInsert d k v).map Prod.fst).Nodup := by
  by_cases hmem : k ∈ d.map Prod.fst
  · rw [keys_dictInsert_mem d k v hmem]; exact h
  · rw [dictInsert_not_mem d k v hmem]
    simp only [List.map_append, List.map_cons, List.map_nil]
    exact List.Nodup.append h (List.nodup_singleton k)
      (by simpa [List.disjoint_singleton] using hmem)

/-- The built dict always has pairwise-distinct keys. -/
theorem pyDict_nodup (l : Headers) : ((pyDict l).map Prod.fst).Nodup := by
  rw [pyDict_eq_foldl]
  have main : ∀ (l d : Headers), (d.map Prod.fst).Nodup →
      ((l.foldl pyDictStep d).map Prod.fst).Nodup := by
    intro l
    induction l with
    | nil => intro d hd; simpa using hd
    | cons kv tl ih =>
        intro d hd
        simp only [List.foldl_cons]
        exact ih _ (dictInsert_nodup d kv.1 kv.2 hd)
  exact main l [] (by simp)

/-- Building a dict from a list with pairwise-distinct keys returns the list
unchanged. -/
theorem pyDict_eq_self_of_nodup (l : Headers)
    (h : (l.map Prod.fst).Nodup) : pyDict l = l := by
  rw [pyDict_eq_foldl]
  have main : ∀ (l d : Headers), ((d ++ l).map Prod.fst).Nodup →
      l.foldl pyDictStep d = d ++ l := by
    intro l
    induction l with
    | nil => intro d _; simp
    | cons kv tl ih =>
        intro d hnd
        have hk : kv.1 ∉ d.map Prod.fst := by
          simp only [List.map_append, List.nodup_append] at hnd
          intro hmem
          exact hnd.2.2 hmem (by simp)
        have hstep : pyDictStep d kv = d ++ [kv] := by
          simpa [pyDictStep] using dictInsert_not_mem d kv.1 kv.2 hk
        simp only [List.foldl_cons, hstep]
        have hnd2 : (((d ++ [kv]) ++ tl).map Prod.fst).Nodup := by
          simpa [List.append_assoc] using hnd
        rw [ih (d ++ [kv]) hnd2, List.append_assoc]
        simp
  simpa using main l [] (by simpa using h)

/-- Filtering preserves key distinctness (via `List.Nodup.sublist`). -/
theorem filter_keys_nodup (p : Header → Bool) (l : Headers)
    (h : (l.map Prod.fst).Nodup) : ((l.filter p).map Prod.fst).Nodup :=
  List.Nodup.sublist (List.Sublist.map Prod.fst (List.filter_sublist l)) h

/-! ### Concrete fixtures used by witnesses and counterexamples -/

/-- A sample inbound request. -/
def exReq : Req := ⟨"GET", "/status?x=1", [("Host", "example.com"), ("X-A", "1")]⟩

/-- A sample hook-produced response (`respond(403 "blocked")`). -/
def exResp : Resp := ⟨403, "Forbidden", [], "blocked"⟩

/-- A sample backend response carrying a hop-by-hop header. -/
def exBackendResp : Resp :=
  ⟨200, "OK", [("Content-Type", "application/json"), ("Connection", "keep-alive")], "\x7b\x22ok\x22:true\x7d"⟩

/-- A header multimap with a duplicated key, exercising the multimap-to-dict
collapse inside `_filter_headers`. -/
def dupHeaders : Headers := [("Set-Cookie", "a"), ("Set-Cookie", "b")]

/-- A header multimap with pairwise-distinct keys. -/
def exHdrs : Headers :=
  [("Host", "example.com"), ("Connection", "keep-alive"), ("X-A", "1"),
   ("Content-Type", "text/html")]

/-- A request whose `Connection` header contains `upgrade` only as a substring
of the token `no-upgrades`, not as a token. -/
def wsReqCex : Req :=
  ⟨"GET", "/", [("Upgrade", "websocket"), ("Connection", "no-upgrades")]⟩

/-! ### C1 — respond-now short-circuits the exchange -/

/-- C1: if the `request` hook raises `RespondNow(R)` (`RequestAborted`), the
exchange finishes with exactly the response `R` carried by the signal, and the
proxy forwarder / backend client is invoked zero times. -/
theorem c1_respond_now_final (reqHook : Req → HookBehavior) (fwdHook : Resp → HookBehavior)
    (proxyForward : String → Req → Resp) (req : Req) (R : Resp)
    (h : reqHook req = .raisesAborted R) :
    handle_request reqHook fwdHook proxyForward req = (.finished R, 0) := by
  simp [handle_request, run_event, h]

/-- Witness for C1 at a concrete hook and request. -/
theorem c1_respond_now_final_witness :
    handle_request (fun _ => .raisesAborted exResp) (fun _ => .returns)
      (fun _ _ => exBackendResp) exReq = (.finished exResp, 0) :=
  c1_respond_now_final (fun _ => .raisesAborted exResp) (fun _ => .returns)
    (fun _ _ => exBackendResp) exReq exResp rfl

/-! ### C2 — forward dispatch decides the final response -/

/-- C2: when the `request` hook raises `ForwardTo(url, rq)` and the backend
call succeeds, the `forward` dispatch decides the final response: a
`RespondNow(R2)` from the `forward` hook makes `R2` final (overriding the
backend response); no signal makes the backend's response, its headers passed
through the hop-by-hop filter, final.  The backend is invoked exactly once
either way. -/
theorem c2_forward_dispatch_final (reqHook : Req → HookBehavior)
    (fwdHook : Resp → HookBehavior) (backend : String → Req → Resp)
    (req rq : Req) (url : String) (R2 : Resp)
    (h : reqHook req = .raisesForward url rq) :
    (fwdHook (ClientProxy_forward backend url rq) = .raisesAborted R2 →
      handle_request reqHook fwdHook (ClientProxy_forward backend) req
        = (.finished R2, 1))
    ∧ (fwdHook (ClientProxy_forward backend url rq) = .returns →
      handle_request reqHook fwdHook (ClientProxy_forward backend) req
        = (.finished { backend url rq with
              headers := filter_headers (backend url rq).headers false }, 1)) := by
  constructor
  · intro h2
    simp [handle_request, run_event, h, h2]
  · intro h2
    simp only [ClientProxy_forward, backendResponse] at h2
    simp [handle_request, run_event, h, h2, ClientProxy_forward, backendResponse]

/-- Witness for C2: both forward-dispatch outcomes at concrete hooks. -/
theorem c2_forward_dispatch_final_witness :
    (handle_request (fun _ => .raisesForward "http://backend" exReq)
        (fun _ => .raisesAborted exResp)
        (ClientProxy_forward (fun _ _ => exBackendResp)) exReq
      = (.finished exResp, 1))
    ∧ (handle_request (fun _ => .raisesForward "http://backend" exReq)
        (fun _ => .returns)
        (ClientProxy_forward (fun _ _ => exBackendResp)) exReq
      = (.finished { exBackendResp with
            headers := filter_headers exBackendResp.headers false }, 1)) :=
  ⟨(c2_forward_dispatch_final (fun _ => .raisesForward "http://backend" exReq)
      (fun _ => .raisesAborted exResp) (fun _ _ => exBackendResp)
      exReq exReq "http://backend" exResp rfl).1 rfl,
   (c2_forward_dispatch_final (fun _ => .raisesForward "http://backend" exReq)
      (fun _ => .returns) (fun _ _ => exBackendResp)
      exReq exReq "http://backend" exResp rfl).2 rfl⟩

/-! ### C3 — a silent hook yields RequestNotHandled, finalized, not retried -/

/-- C3: if the `request` hook returns without raising either signal, the state
machine raises `RequestNotHandled` (no response is finished, the backend is
never invoked), and the runtime finalization still produces a terminal
internal-error (500) response rather than a hung connection. -/
theorem c3_unhandled_finalizes (reqHook : Req → HookBehavior)
    (fwdHook : Resp → HookBehavior) (proxyForward : String → Req → Resp)
    (req : Req) (h : reqHook req = .returns) :
    handle_request reqHook fwdHook proxyForward req = (.notHandled, 0)
    ∧ finalize_exchange (handle_request reqHook fwdHook proxyForward req).1
        = internal_error_response
    ∧ internal_error_response.status = 500 := by
  refine ⟨?_, ?_, rfl⟩
  · simp [handle_request, run_event, h]
  · simp [handle_request, run_event, h, finalize_exchange]

/-- Witness for C3 at a concrete silent hook. -/
theorem c3_unhandled_finalizes_witness :
    handle_request (fun _ => .returns) (fun _ => .returns)
      (fun _ _ => exBackendResp) exReq = (.notHandled, 0)
    ∧ finalize_exchange (handle_request (fun _ => .returns) (fun _ => .returns)
        (fun _ _ => exBackendResp) exReq).1 = internal_error_response
    ∧ internal_error_response.status = 500 :=
  c3_unhandled_finalizes (fun _ => .returns) (fun _ => .returns)
    (fun _ _ => exBackendResp) exReq rfl

/-! ### C4 — signal propagation and error containment in the dispatcher -/

/-- C4: `_run_event` re-raises the two control signals (`RequestAborted`,
`RequestForward`) uncaught to the dispatch caller, while any other `Exception`
raised by a hook is caught and routed to the default `error` handler — the
wrapper returns instead of propagating, so the process does not crash.  (A
`CancelledError`, which is not an `Exception` subclass, is swallowed without
invoking the error handler.) -/
theorem c4_run_event_policy :
    (∀ r, run_event (.raisesAborted r) = .raisedAborted r)
    ∧ (∀ url rq, run_event (.raisesForward url rq) = .raisedForward url rq)
    ∧ (∀ e, run_event (.raisesOther e) = .errorRouted e)
    ∧ run_event .raisesCancelled = .ok :=
  ⟨fun _ => rfl, fun _ _ => rfl, fun _ => rfl, rfl⟩

/-! ### C5 / C9 — backend retry policy and dead code after the loop -/

/-- The retry loop makes at most as many attempts as it has iterations left. -/
theorem requestLoop_attempts_le (t : Nat → AttemptOutcome) (tries fuel : Nat) :
    (requestLoop t tries fuel).2.1 ≤ fuel := by
  induction fuel generalizing tries with
  | zero => simp [requestLoop]
  | succ n ih =>
      cases h : t tries with
      | ok raw => simp [requestLoop, h]
      | oserror errno =>
          simp only [requestLoop, h]
          split
          · simpa using Nat.succ_le_succ (ih (tries + 1))
          · simp
      | exn e => simp [requestLoop, h]

/-- As long as the loop index plus the remaining iterations cover the full
`range(5)` and at least one iteration remains, the loop body exits the
function before the iterations run out. -/
theorem requestLoop_ne_unreachable (t : Nat → AttemptOutcome) (fuel tries : Nat)
    (hsum : 5 ≤ tries + fuel) (hfuel : 1 ≤ fuel) :
    (requestLoop t tries fuel).1 ≠ .unreachable := by
  induction fuel generalizing tries with
  | zero => omega
  | succ n ih =>
      cases h : t tries with
      | ok raw => simp [requestLoop, h]
      | oserror errno =>
          simp only [requestLoop, h]
          split
          · rename_i hcond
            obtain ⟨ht4, -⟩ := hcond
            have h1 : 5 ≤ (tries + 1) + n := by omega
            have h2 : 1 ≤ n := by omega
            simpa using ih (tries + 1) h1 h2
          · simp
      | exn e => simp [requestLoop, h]

/-- C5: `HTTPClient.request` makes at most 5 attempts; it retries only on a
connection-reset `OSError` (`errno ∈ {54, 10054}`): against a transport that
resets on the first four attempts and succeeds on the fifth it returns the
success response after 5 attempts with `1 + 3 + 5 + 7 = 16` time units slept;
against a transport that resets on all five attempts it surfaces the error
after exactly 5 attempts (no 6th) with 16 slept; a non-retryable `OSError` and
a non-`OSError` exception are re-raised on the first attempt with nothing
slept. -/
theorem c5_retry_policy (r : Resp) :
    (∀ t, (HTTPClient_request t).2.1 ≤ 5)
    ∧ HTTPClient_request (fun n => if n < 4 then .oserror 54 else .ok r)
        = (.ok (backendResponse r), 5, 16)
    ∧ HTTPClient_request (fun _ => .oserror 54) = (.osfail 54, 5, 16)
    ∧ (∀ e : Int, ¬(e = 54 ∨ e = 10054) →
        HTTPClient_request (fun _ => .oserror e) = (.osfail e, 1, 0))
    ∧ (∀ e, HTTPClient_request (fun _ => .exn e) = (.exnfail e, 1, 0)) := by
  refine ⟨fun t => requestLoop_attempts_le t 0 5, ?_, by decide, ?_, fun e => rfl⟩
  · show requestLoop _ 0 5 = _
    norm_num [requestLoop, backendResponse]
  · intro e he
    show requestLoop _ 0 5 = _
    simp [requestLoop, he]

/-- Witness for C5: a non-retryable errno (99) is raised at once. -/
theorem c5_retry_policy_witness :
    HTTPClient_request (fun _ => .oserror 99) = (.osfail 99, 1, 0) :=
  (c5_retry_policy exResp).2.2.2.1 99 (by decide)

/-- C9: the `raise RuntimeError("Unreachable, all retries exhausted")` after
the retry loop is dead code — for every transport (every pattern of attempt
outcomes) the loop returns or re-raises before its 5 iterations are
exhausted, so `HTTPClient.request` never falls through to the statement after
the loop. -/
theorem c9_unreachable_dead (t : Nat → AttemptOutcome) :
    (HTTPClient_request t).1 ≠ .unreachable :=
  requestLoop_ne_unreachable t 5 0 (by omega) (by omega)

/-! ### C6 — header filter: hop-by-hop removal, but duplicates collapse -/

/-- C6 counterexample: on a multimap with a duplicated key the filter does not
preserve every non-hop-by-hop header — the `dict` comprehension keeps only the
last value of `Set-Cookie`, so the output differs from the input with the
hop-by-hop entries removed. -/
theorem c6_counterexample :
    filter_headers dupHeaders false ≠ dupHeaders.filter (keepHeader false) := by
  decide

/-- C6 (amended): the filter's output never contains any excluded name (the
eight hop-by-hop names, plus `host` when `include_host` is true) under any
casing; and on a header set whose (exact-cased) keys are pairwise distinct,
every other header keeps its value and relative order — the output is exactly
the input with the excluded names removed.  (With duplicate keys the `dict`
comprehension keeps one entry per key: the last value at the first
occurrence's position.) -/
theorem c6_filter_amended (h : Headers) (inc : Bool) :
    (filter_headers h inc).all
        (fun kv => !((excludedNames inc).contains (asciiLower kv.1))) = true
    ∧ ((h.map Prod.fst).Nodup →
        filter_headers h inc = h.filter (keepHeader inc)) := by
  constructor
  · rw [List.all_eq_true]
    intro kv hkv
    exact pyDict_key_pred (fun k => !((excludedNames inc).contains (asciiLower k)))
      (h.filter (keepHeader inc))
      (fun x hx => (List.mem_filter.mp hx).2) kv hkv
  · intro hnd
    unfold filter_headers
    exact pyDict_eq_self_of_nodup _ (filter_keys_nodup (keepHeader inc) h hnd)

/-- Witness for C6 (amended) on a concrete distinct-key header set. -/
theorem c6_filter_amended_witness :
    filter_headers exHdrs true = exHdrs.filter (keepHeader true) :=
  (c6_filter_amended exHdrs true).2 (by decide)

/-! ### C8 — the header filter is idempotent -/

/-- C8: filtering an already-filtered header set is a no-op, for either value
of the `include_host` flag: the first pass leaves only kept names with
pairwise-distinct keys, so the second pass's comprehension reproduces its
input unchanged. -/
theorem c8_filter_idempotent (h : Headers) (inc : Bool) :
    filter_headers (filter_headers h inc) inc = filter_headers h inc := by
  unfold filter_headers
  have hall : ∀ x ∈ pyDict (h.filter (keepHeader inc)), keepHeader inc x = true :=
    fun x hx =>
      pyDict_key_pred (fun k => !((excludedNames inc).contains (asciiLower k)))
        (h.filter (keepHeader inc))
        (fun y hy => (List.mem_filter.mp hy).2) x hx
  rw [List.filter_eq_self.mpr hall]
  exact pyDict_eq_self_of_nodup _ (pyDict_nodup _)

/-! ### C7 — WebSocket upgrade detection uses substring, not token, matching -/

/-- C7 counterexample: with `Upgrade: websocket` and `Connection: no-upgrades`
the code reports a WebSocket upgrade request (Python's `in` is substring
containment), while `upgrade` is not a token of the `Connection` value — the
claimed token-containment characterisation is false at this request. -/
theorem c7_counterexample :
    ¬(is_websocket_request wsReqCex = true ↔
        (asciiLower (headers_get wsReqCex.headers "Upgrade") = "websocket"
          ∧ tokenContains (headers_get wsReqCex.headers "Connection") "upgrade" = true)) := by
  decide

/-- C7 (amended): `is_websocket_request r` is true iff the `Upgrade` header
case-insensitively equals `websocket` and the lowercased `Connection` header
contains `upgrade` as a substring (not necessarily as a token). -/
theorem c7_upgrade_detection (r : Req) :
    is_websocket_request r = true ↔
      (asciiLower (headers_get r.headers "Upgrade") = "websocket"
        ∧ strContains (asciiLower (headers_get r.headers "Connection")) "upgrade" = true) := by
  simp [is_websocket_request]

/-! ### C10 — the WebSocket URL rewrite replaces schemes everywhere -/

/-- C10: `WebSocketHandler.forward` rewrites `http://`/`https://` by global
string replacement over the whole composed URL, not only at the leading
scheme: for the inbound path-and-query `/hook?next=http://evil` against base
`http://backend`, the rewritten URL also rewrites the query's embedded URL,
and so differs from the scheme-position-only rewrite. -/
theorem c10_ws_rewrite_global :
    ws_forward_url "http://backend" "/hook?next=http://evil"
        = "ws://backend/hook?next=ws://evil"
    ∧ schemeOnlyRewrite (rstripSlash "http://backend" ++ "/hook?next=http://evil")
        = "ws://backend/hook?next=http://evil"
    ∧ ws_forward_url "http://backend" "/hook?next=http://evil"
        ≠ schemeOnlyRewrite (rstripSlash "http://backend" ++ "/hook?next=http://evil") := by
  exact ⟨by decide, by decide, by decide⟩

end PyGuard
